/-
  Verification of the processWatchdog supervisor (diffstorm/processWatchdog).

  Shallow embedding of the C sources into Lean 4:
  - `Application` mirrors `Application_t` (src/src/apps.h);
  - `Statistic` mirrors `Statistic_t` (src/src/stats.c);
  - heartbeat logic mirrors src/src/heartbeat.c (`heartbeat_is_timeout`,
    the monotonic-clock variant, whose logic coincides with `is_timeup`
    in src/src/apps.c);
  - process lifecycle mirrors src/src/process.c (`process_start`,
    `process_kill`, `process_restart`), with the outcomes of the
    OS calls (`fork`, kill confirmation, liveness probes) passed in
    explicitly as an oracle record;
  - statistics updates mirror src/src/stats.c;
  - network command parsing mirrors `cmd_parse_network` (cmd.c) and
    `parse_number` (utils.c), bytes being modelled as `Nat` character
    codes and C `int` overflow as explicit wrapping at 2^32;
  - the per-child portion of the supervisor loop, the SIGUSR1 handler and
    the periodic-reboot check mirror main.c.

  C `time_t`/`long`/`int` values are modelled as `Int` (with explicit
  wrapping where overflow is relevant), `size_t` counters as `Nat`,
  C booleans as `Bool`.  The four `float` CPU fields of `Statistic_t` are
  carried as `Int` placeholders: in all code paths relevant to the claims
  they are only ever copied or zeroed wholesale, never computed with.
-/
import Mathlib

namespace ProcessWatchdog

/-- EXIT_NORMALLY from src/src/utils.h. -/
def EXIT_NORMALLY : Int := 0

/-- EXIT_RESTART from src/src/utils.h. -/
def EXIT_RESTART : Int := 2

/-- EXIT_REBOOT from src/src/utils.h. -/
def EXIT_REBOOT : Int := 3

/-- INT32_MAX, the bound used by `cmd_parse_network` on heartbeat pids. -/
def INT32_MAX : Int := 2147483647

/-- Mirror of `Application_t` (src/src/apps.h).  The `name` and `cmd`
strings play no role in the claims' logic and are omitted from the record;
children are identified by their index / pid. -/
structure Application where
  start_delay : Int
  heartbeat_delay : Int
  heartbeat_interval : Int
  started : Bool
  first_heartbeat : Bool
  pid : Int
  last_heartbeat : Int
  deriving Repr, DecidableEq

/-- The all-zero `Application_t` produced by `memset(apps, 0, ...)` in
`config_parse_file` / `read_ini_file`. -/
def Application.zero : Application :=
  { start_delay := 0, heartbeat_delay := 0, heartbeat_interval := 0,
    started := false, first_heartbeat := false, pid := 0, last_heartbeat := 0 }

/-- Mirror of `heartbeat_update_time` (src/src/heartbeat.c): stamps
`last_heartbeat` with the current time. -/
def heartbeat_update_time (now : Int) (app : Application) : Application :=
  { app with last_heartbeat := now }

/-- Mirror of `heartbeat_set_first_received` (src/src/heartbeat.c). -/
def heartbeat_set_first_received (app : Application) : Application :=
  { app with first_heartbeat := true }

/-- Mirror of `heartbeat_get_elapsed_time` (src/src/heartbeat.c):
`now - last_heartbeat`. -/
def heartbeat_get_elapsed_time (now : Int) (app : Application) : Int :=
  now - app.last_heartbeat

/-- Mirror of `heartbeat_is_timeout` (src/src/heartbeat.c, monotonic-clock
variant; `is_timeup` in src/src/apps.c implements the same decision on the
wall clock).  Returns the timeout verdict together with the possibly
updated record, because the clock-anomaly branch mutates `last_heartbeat`
through `heartbeat_update_time`. -/
def heartbeat_is_timeout (now : Int) (app : Application) : Bool × Application :=
  if !app.started then
    (false, app)
  else if app.heartbeat_interval ≤ 0 then
    (false, app)
  else
    let elapsed := now - app.last_heartbeat
    if elapsed < 0 then
      (false, heartbeat_update_time now app)
    else
      let first_heartbeat_threshold := max app.heartbeat_interval app.heartbeat_delay
      let regular_threshold := app.heartbeat_interval
      let threshold := if app.first_heartbeat then regular_threshold else first_heartbeat_threshold
      (decide (elapsed ≥ threshold), app)

/-- The heartbeat-timeout decision of C1, claim statement.

For every child record, the decision returns false when the child is not
started or its heartbeat interval is 0; if now is earlier than
last_heartbeat, last_heartbeat is reset to now and no timeout is reported;
otherwise the verdict is `elapsed ≥ threshold` with
`threshold = heartbeat_interval` when the first heartbeat was received and
`max (heartbeat_interval) (heartbeat_delay)` otherwise, the record being
left unchanged.  The hypothesis `0 ≤ heartbeat_interval` reflects that the
configuration parser (`parse_int(value, 0, INT_MAX, ...)` in config.c)
only produces non-negative intervals. -/
theorem heartbeat_timeout_spec (app : Application) (now : Int)
    (hint : 0 ≤ app.heartbeat_interval) :
    ((app.started = false ∨ app.heartbeat_interval = 0) →
        heartbeat_is_timeout now app = (false, app)) ∧
    (app.started = true → app.heartbeat_interval ≠ 0 →
      ((now < app.last_heartbeat →
          heartbeat_is_timeout now app = (false, heartbeat_update_time now app)) ∧
       (app.last_heartbeat ≤ now →
          heartbeat_is_timeout now app =
            (decide (now - app.last_heartbeat ≥
               (if app.first_heartbeat then app.heartbeat_interval
                else max app.heartbeat_interval app.heartbeat_delay)), app)))) := by
  refine ⟨?_, ?_⟩
  · rintro (hs | hi)
    · simp [heartbeat_is_timeout, hs]
    · have hle : app.heartbeat_interval ≤ 0 := le_of_eq hi
      by_cases hs : app.started <;> simp [heartbeat_is_timeout, hs, hle]
  · intro hs hi
    have hpos : ¬ app.heartbeat_interval ≤ 0 := by omega
    refine ⟨?_, ?_⟩
    · intro hlt
      have h0 : now - app.last_heartbeat < 0 := by omega
      simp [heartbeat_is_timeout, hs, hpos, h0]
    · intro hle
      have h0 : ¬ (now - app.last_heartbeat < 0) := by omega
      simp [heartbeat_is_timeout, hs, hpos, h0]

/-- A concrete started child used by witnesses: heartbeat delay 9,
heartbeat interval 5, first heartbeat not yet received, last heartbeat
stamped at time 3. -/
def sampleApp : Application :=
  { start_delay := 0, heartbeat_delay := 9, heartbeat_interval := 5,
    started := true, first_heartbeat := false, pid := 7, last_heartbeat := 3 }

/-- Witness for `heartbeat_timeout_spec`: at time 12 the concrete child
`sampleApp` (elapsed 9, first-heartbeat threshold max 5 9 = 9) times out. -/
theorem heartbeat_timeout_spec_witness :
    (0 : Int) ≤ sampleApp.heartbeat_interval ∧
    heartbeat_is_timeout 12 sampleApp = (true, sampleApp) := by
  refine ⟨by decide, ?_⟩
  have h := ((heartbeat_timeout_spec sampleApp 12 (by decide)).2
    (by decide) (by decide)).2 (by decide)
  rw [h]
  decide

/-- Outcomes of the OS calls made by the process driver (src/src/process.c),
passed explicitly: `fork` is the value `fork()` returns to the parent
(the child's positive pid, or negative on failure), `killed` is whether
`process_kill` confirmed the termination, `running0` and `runningAfter`
are the `process_is_running` probes at the start and end of
`process_restart`. -/
structure ProcOracle where
  fork : Int
  killed : Bool
  running0 : Bool
  runningAfter : Bool
  deriving Repr, DecidableEq

/-- Mirror of `process_start` (src/src/process.c).  The function first sets
`pid = 0`; on fork failure it returns with the record in that state; in the
parent success branch it sets `started = true`, `first_heartbeat = false`,
`pid` to the fork result and stamps `last_heartbeat` via
`update_heartbeat_time`.  The `pid == 0` child branch execs and never
returns to the supervisor. -/
def process_start (o : ProcOracle) (now : Int) (app : Application) : Application :=
  let app' := { app with pid := 0 }
  if o.fork < 0 then app'
  else heartbeat_update_time now
    { app' with started := true, first_heartbeat := false, pid := o.fork }

/-- Mirror of `process_kill` (src/src/process.c): a no-op when `pid ≤ 0`;
otherwise, when the termination is confirmed, clears `started`,
`first_heartbeat` and `pid` together; when unconfirmed the record is left
untouched. -/
def process_kill (o : ProcOracle) (app : Application) : Application :=
  if app.pid ≤ 0 then app
  else if o.killed then
    { app with started := false, first_heartbeat := false, pid := 0 }
  else app

/-- Mirror of `process_restart` (src/src/process.c): kill when the liveness
probe reports running, then start, then stamp `last_heartbeat` when the
post-start probe reports running. -/
def process_restart (o : ProcOracle) (now : Int) (app : Application) : Application :=
  let a1 := if o.running0 then process_kill o app else app
  let a2 := process_start o now a1
  if o.runningAfter then heartbeat_update_time now a2 else a2

/-- Invariant 1 of the spec: a positive pid implies the started flag. -/
def pid_started_inv (app : Application) : Prop :=
  0 < app.pid → app.started = true

lemma pid_started_inv_start (o : ProcOracle) (now : Int) (app : Application) :
    pid_started_inv (process_start o now app) := by
  unfold pid_started_inv process_start heartbeat_update_time
  by_cases hf : o.fork < 0 <;> simp [hf]

lemma pid_started_inv_kill (o : ProcOracle) (app : Application)
    (h : pid_started_inv app) : pid_started_inv (process_kill o app) := by
  unfold pid_started_inv process_kill at *
  by_cases hp : app.pid ≤ 0
  · simp [hp]
  · by_cases hk : o.killed
    · simp [hp, hk]
    · simpa [hp, hk] using h

lemma pid_started_inv_update (now : Int) (app : Application)
    (h : pid_started_inv app) : pid_started_inv (heartbeat_update_time now app) := by
  unfold pid_started_inv heartbeat_update_time at *
  simpa using h

lemma pid_started_inv_restart (o : ProcOracle) (now : Int) (app : Application)
    (h : pid_started_inv app) : pid_started_inv (process_restart o now app) := by
  unfold process_restart
  have h1 : pid_started_inv (if o.running0 then process_kill o app else app) := by
    by_cases hr : o.running0 <;> simp [hr]
    · exact pid_started_inv_kill o app h
    · exact h
  by_cases ha : o.runningAfter <;> simp [ha]
  · exact pid_started_inv_update now _ (pid_started_inv_start o now _)
  · exact pid_started_inv_start o now _

/-- Claim C3: `pid > 0` implies `started` at every point.

The freshly zeroed record satisfies the invariant, and every operation of
the process driver and the heartbeat tracker that changes a child record
preserves it; moreover a failed spawn leaves `pid = 0`, a successful spawn
leaves `started = true` with `pid` equal to the fork result, and a
confirmed termination clears `started`, `first_heartbeat` and `pid`
together. -/
theorem pid_started_invariant (app : Application) (o : ProcOracle) (now : Int)
    (h : pid_started_inv app) :
    pid_started_inv Application.zero ∧
    pid_started_inv (process_start o now app) ∧
    (o.fork < 0 → (process_start o now app).pid = 0) ∧
    (¬ o.fork < 0 → (process_start o now app).started = true ∧
        (process_start o now app).pid = o.fork) ∧
    (0 < app.pid → o.killed = true →
        (process_kill o app).started = false ∧
        (process_kill o app).first_heartbeat = false ∧
        (process_kill o app).pid = 0) ∧
    pid_started_inv (process_kill o app) ∧
    pid_started_inv (process_restart o now app) ∧
    pid_started_inv (heartbeat_update_time now app) ∧
    pid_started_inv (heartbeat_set_first_received app) ∧
    pid_started_inv (heartbeat_is_timeout now app).2 := by
  refine ⟨?_, pid_started_inv_start o now app, ?_, ?_, ?_,
    pid_started_inv_kill o app h, pid_started_inv_restart o now app h,
    pid_started_inv_update now app h, ?_, ?_⟩
  · intro hp
    simp [Application.zero] at hp
  · intro hf
    simp [process_start, hf]
  · intro hf
    simp [process_start, heartbeat_update_time, hf]
  · intro hp hk
    have hp' : ¬ app.pid ≤ 0 := by omega
    simp [process_kill, hp', hk]
  · unfold pid_started_inv heartbeat_set_first_received at *
    simpa using h
  · unfold heartbeat_is_timeout
    by_cases hs : app.started
    · by_cases hi : app.heartbeat_interval ≤ 0
      · simpa [hs, hi] using h
      · by_cases hn : now - app.last_heartbeat < 0
        · simpa [hs, hi, hn] using pid_started_inv_update now app h
        · simpa [hs, hi, hn] using h
    · simpa [hs] using h

/-- Witness for `pid_started_invariant`: the concrete started child
`sampleApp` with a concrete oracle (successful fork of pid 9, confirmed
kill, both probes reporting running). -/
theorem pid_started_invariant_witness :
    pid_started_inv sampleApp ∧
    (process_kill ⟨9, true, true, true⟩ sampleApp).pid = 0 := by
  have hinv : pid_started_inv sampleApp := by
    intro hp
    rfl
  refine ⟨hinv, ?_⟩
  exact ((pid_started_invariant sampleApp ⟨9, true, true, true⟩ 12 hinv).2.2.2.2.1
    (by decide) rfl).2.2

/-- STATS_MAGIC from src/src/stats.c: `0xA50FAA55`. -/
def STATS_MAGIC : Nat := 0xA50FAA55

/-- Mirror of `Statistic_t` (src/src/stats.c).  `time_t` fields are `Int`,
`size_t` counters are `Nat`, the `uint32_t` magic is a `Nat`.  The four
`float` CPU fields are carried as `Int` placeholders: in every code path a
claim touches they are only copied or zeroed wholesale. -/
structure Statistic where
  started_at : Int
  crashed_at : Int
  heartbeat_reset_at : Int
  avg_first_heartbeat_time : Int
  max_first_heartbeat_time : Int
  min_first_heartbeat_time : Int
  avg_heartbeat_time : Int
  max_heartbeat_time : Int
  min_heartbeat_time : Int
  start_count : Nat
  crash_count : Nat
  heartbeat_count : Nat
  heartbeat_count_old : Nat
  heartbeat_reset_count : Nat
  avg_heartbeat_count_old : Nat
  current_cpu_percent : Int
  max_cpu_percent : Int
  min_cpu_percent : Int
  avg_cpu_percent : Int
  current_memory_kb : Nat
  max_memory_kb : Nat
  min_memory_kb : Nat
  avg_memory_kb : Nat
  resource_sample_count : Nat
  magic : Nat
  deriving Repr, DecidableEq

/-- The record produced by `memset(&stats[index], 0, sizeof(Statistic_t))`:
every field zero. -/
def Statistic.zero : Statistic :=
  { started_at := 0, crashed_at := 0, heartbeat_reset_at := 0,
    avg_first_heartbeat_time := 0, max_first_heartbeat_time := 0,
    min_first_heartbeat_time := 0, avg_heartbeat_time := 0,
    max_heartbeat_time := 0, min_heartbeat_time := 0,
    start_count := 0, crash_count := 0, heartbeat_count := 0,
    heartbeat_count_old := 0, heartbeat_reset_count := 0,
    avg_heartbeat_count_old := 0, current_cpu_percent := 0,
    max_cpu_percent := 0, min_cpu_percent := 0, avg_cpu_percent := 0,
    current_memory_kb := 0, max_memory_kb := 0, min_memory_kb := 0,
    avg_memory_kb := 0, resource_sample_count := 0, magic := 0 }

/-- Mirror of `clearHeartbeatCount` (src/src/stats.c): copies
`heartbeat_count` into `heartbeat_count_old`, then zeroes
`heartbeat_count`. -/
def clearHeartbeatCount (s : Statistic) : Statistic :=
  { s with heartbeat_count_old := s.heartbeat_count, heartbeat_count := 0 }

/-- Mirror of `updateHeartbeatCountAverage` (src/src/stats.c).  `size_t`
arithmetic: the subtraction `total_events - 1` is guarded by
`total_events > 1`, so Nat subtraction coincides with the C unsigned
subtraction. -/
def updateHeartbeatCountAverage (s : Statistic) : Statistic :=
  if 0 < s.heartbeat_count_old then
    let total_events := s.crash_count + s.heartbeat_reset_count
    if total_events = 1 then
      { s with avg_heartbeat_count_old := s.heartbeat_count_old }
    else if 1 < total_events then
      { s with avg_heartbeat_count_old :=
          (s.avg_heartbeat_count_old * (total_events - 1) + s.heartbeat_count_old)
            / total_events }
    else s
  else s

/-- Mirror of `stats_started_at` (src/src/stats.c): stamps `started_at`,
increments `start_count`, then resets the heartbeat counter. -/
def stats_started_at (wallNow : Int) (s : Statistic) : Statistic :=
  clearHeartbeatCount { s with started_at := wallNow, start_count := s.start_count + 1 }

/-- Mirror of `stats_crashed_at` (src/src/stats.c): stamps `crashed_at`,
increments `crash_count`, folds the old heartbeat count into the running
average, then resets the heartbeat counter. -/
def stats_crashed_at (wallNow : Int) (s : Statistic) : Statistic :=
  clearHeartbeatCount (updateHeartbeatCountAverage
    { s with crashed_at := wallNow, crash_count := s.crash_count + 1 })

/-- Mirror of `stats_heartbeat_reset_at` (src/src/stats.c). -/
def stats_heartbeat_reset_at (wallNow : Int) (s : Statistic) : Statistic :=
  clearHeartbeatCount (updateHeartbeatCountAverage
    { s with heartbeat_reset_at := wallNow,
             heartbeat_reset_count := s.heartbeat_reset_count + 1 })

/-- Mirror of `stats_update_heartbeat_time` (src/src/stats.c): increments
`heartbeat_count`, updates the running average (C evaluates the division in
`size_t`; for the non-negative operands the operation produces this agrees
with truncated integer division, written `Int.tdiv`), raises
`max_heartbeat_time` when exceeded, and lowers `min_heartbeat_time` when
undercut or on the first sample. -/
def stats_update_heartbeat_time (heartbeatTime : Int) (s : Statistic) : Statistic :=
  let cnt := s.heartbeat_count + 1
  let s1 := { s with
    heartbeat_count := cnt,
    avg_heartbeat_time :=
      Int.tdiv (s.avg_heartbeat_time * ((cnt : Int) - 1) + heartbeatTime) (cnt : Int) }
  let s2 := if heartbeatTime > s1.max_heartbeat_time then
      { s1 with max_heartbeat_time := heartbeatTime } else s1
  if heartbeatTime < s2.min_heartbeat_time ∨ cnt = 1 then
    { s2 with min_heartbeat_time := heartbeatTime } else s2

/-- Mirror of `stats_update_first_heartbeat_time` (src/src/stats.c).  The
divisor is `start_count + crash_count + heartbeat_reset_count`; `Int.tdiv`
by 0 yields 0 where the C division would be undefined. -/
def stats_update_first_heartbeat_time (heartbeatTime : Int) (s : Statistic) : Statistic :=
  let n : Nat := s.start_count + s.crash_count + s.heartbeat_reset_count
  let s1 := { s with
    avg_first_heartbeat_time :=
      Int.tdiv (s.avg_first_heartbeat_time * ((n : Int) - 1) + heartbeatTime) (n : Int) }
  let s2 := if heartbeatTime > s1.max_first_heartbeat_time then
      { s1 with max_first_heartbeat_time := heartbeatTime } else s1
  if heartbeatTime < s2.min_first_heartbeat_time ∨ s.start_count = 1 then
    { s2 with min_first_heartbeat_time := heartbeatTime } else s2

/-- Mirror of `resetStatisticsFile` (src/src/stats.c): when the magic is
not `STATS_MAGIC` the record is zeroed and the magic re-stamped. -/
def resetStatisticsFile (s : Statistic) : Statistic :=
  if s.magic ≠ STATS_MAGIC then { Statistic.zero with magic := STATS_MAGIC } else s

/-- Mirror of `stats_write_to_file` (src/src/stats.c): validates the
in-memory record, then writes its bytes to the `.raw` file.  Returns the
pair (new in-memory record, file content); `f_write` copies the struct
bytes verbatim, so the file content is the record itself. -/
def stats_write_to_file (s : Statistic) : Statistic × Statistic :=
  let s' := resetStatisticsFile s
  (s', s')

/-- Mirror of `stats_read_from_file` (src/src/stats.c): when the `.raw`
file is missing the record is persisted (creating the file); otherwise the
file bytes replace the in-memory record, which is then validated.  Returns
the pair (new in-memory record, file content after the call). -/
def stats_read_from_file (file : Option Statistic) (s : Statistic) : Statistic × Statistic :=
  match file with
  | none => stats_write_to_file s
  | some f => (resetStatisticsFile f, f)

lemma resetStatisticsFile_magic (s : Statistic) :
    (resetStatisticsFile s).magic = STATS_MAGIC := by
  unfold resetStatisticsFile
  split_ifs with h
  · rfl
  · exact not_not.mp h

lemma resetStatisticsFile_valid (s : Statistic) (h : s.magic = STATS_MAGIC) :
    resetStatisticsFile s = s := by
  simp [resetStatisticsFile, h]

lemma updateHeartbeatCountAverage_counts (s : Statistic) :
    (updateHeartbeatCountAverage s).heartbeat_count = s.heartbeat_count ∧
    (updateHeartbeatCountAverage s).heartbeat_count_old = s.heartbeat_count_old := by
  simp only [updateHeartbeatCountAverage]
  split_ifs <;> exact ⟨rfl, rfl⟩

/-- Claim C4: every heartbeat-counter reset snapshots the counter.

After `clearHeartbeatCount` itself and after each of `stats_started_at`,
`stats_crashed_at` and `stats_heartbeat_reset_at`, the field
`heartbeat_count_old` equals the pre-call `heartbeat_count` and
`heartbeat_count` equals 0. -/
theorem heartbeat_count_reset (s : Statistic) (wallNow : Int) :
    (clearHeartbeatCount s).heartbeat_count_old = s.heartbeat_count ∧
    (clearHeartbeatCount s).heartbeat_count = 0 ∧
    (stats_started_at wallNow s).heartbeat_count_old = s.heartbeat_count ∧
    (stats_started_at wallNow s).heartbeat_count = 0 ∧
    (stats_crashed_at wallNow s).heartbeat_count_old = s.heartbeat_count ∧
    (stats_crashed_at wallNow s).heartbeat_count = 0 ∧
    (stats_heartbeat_reset_at wallNow s).heartbeat_count_old = s.heartbeat_count ∧
    (stats_heartbeat_reset_at wallNow s).heartbeat_count = 0 := by
  refine ⟨rfl, rfl, rfl, rfl, ?_, rfl, ?_, rfl⟩
  · unfold stats_crashed_at clearHeartbeatCount
    simp [(updateHeartbeatCountAverage_counts _).1]
  · unfold stats_heartbeat_reset_at clearHeartbeatCount
    simp [(updateHeartbeatCountAverage_counts _).1]

/-- Claim C9: a recorded heartbeat sample is bracketed by min and max.

For every non-negative sample `x` recorded via
`stats_update_heartbeat_time`, immediately after the call
`min_heartbeat_time ≤ x ≤ max_heartbeat_time`; the first sample (the one
that takes `heartbeat_count` to 1) initialises the minimum to `x`, and the
maximum is raised to `x` whenever `x` exceeds it. -/
theorem heartbeat_sample_min_max (s : Statistic) (x : Int) (hx : 0 ≤ x) :
    (stats_update_heartbeat_time x s).min_heartbeat_time ≤ x ∧
    x ≤ (stats_update_heartbeat_time x s).max_heartbeat_time ∧
    (s.heartbeat_count = 0 →
      (stats_update_heartbeat_time x s).min_heartbeat_time = x) ∧
    (s.max_heartbeat_time < x →
      (stats_update_heartbeat_time x s).max_heartbeat_time = x) := by
  unfold stats_update_heartbeat_time
  by_cases hmax : x > s.max_heartbeat_time <;>
    by_cases hmin : x < s.min_heartbeat_time ∨ s.heartbeat_count = 0 <;>
      simp [hmax, hmin] <;> omega

/-- Witness for `heartbeat_sample_min_max`: recording the sample 4 into
the all-zero record sets both bounds to 4. -/
theorem heartbeat_sample_min_max_witness :
    (0 : Int) ≤ 4 ∧
    (stats_update_heartbeat_time 4 Statistic.zero).min_heartbeat_time ≤ 4 := by
  exact ⟨by decide, (heartbeat_sample_min_max Statistic.zero 4 (by decide)).1⟩

/-- Claim C5: `.raw` round-trip and corruption recovery.

Reading back a persisted record whose magic equals `STATS_MAGIC` yields the
record unchanged — in particular any record produced by
`stats_write_to_file` reads back verbatim — while reading a record whose
magic differs yields the fully zeroed record with the magic re-stamped. -/
theorem stats_raw_roundtrip (f s s' : Statistic) :
    (f.magic = STATS_MAGIC → stats_read_from_file (some f) s = (f, f)) ∧
    (stats_read_from_file (some (stats_write_to_file s').2) s).1 =
      (stats_write_to_file s').2 ∧
    (f.magic ≠ STATS_MAGIC →
      (stats_read_from_file (some f) s).1 =
        { Statistic.zero with magic := STATS_MAGIC }) := by
  refine ⟨?_, ?_, ?_⟩
  · intro hm
    simp [stats_read_from_file, resetStatisticsFile_valid f hm]
  · show resetStatisticsFile (stats_write_to_file s').2 = (stats_write_to_file s').2
    exact resetStatisticsFile_valid _ (resetStatisticsFile_magic s')
  · intro hm
    simp [stats_read_from_file, resetStatisticsFile, hm]

/-- Witness for `stats_raw_roundtrip`: a zero record (magic 0) is read back
as the zeroed record with the magic stamped. -/
theorem stats_raw_roundtrip_witness :
    Statistic.zero.magic ≠ STATS_MAGIC ∧
    (stats_read_from_file (some Statistic.zero) Statistic.zero).1 =
      { Statistic.zero with magic := STATS_MAGIC } := by
  refine ⟨by decide, ?_⟩
  exact (stats_raw_roundtrip Statistic.zero Statistic.zero Statistic.zero).2.2 (by decide)

/-- Claim C10: every persisted record carries `STATS_MAGIC`.

The write path first validates (zeroing and re-stamping a record whose
magic differs), so the file written by `stats_write_to_file` always has
magic `STATS_MAGIC`, validates unchanged on reload, and the very first
write of a never-initialised record — the one `stats_read_from_file`
performs when the `.raw` file is missing — also produces a file with magic
`STATS_MAGIC`. -/
theorem stats_write_magic (s : Statistic) :
    ((stats_write_to_file s).2).magic = STATS_MAGIC ∧
    resetStatisticsFile (stats_write_to_file s).2 = (stats_write_to_file s).2 ∧
    (stats_read_from_file (some (stats_write_to_file s).2) Statistic.zero).1 =
      (stats_write_to_file s).2 ∧
    ((stats_read_from_file none s).2).magic = STATS_MAGIC := by
  have h2 : (stats_write_to_file s).2 = resetStatisticsFile s := rfl
  refine ⟨?_, ?_, ?_, ?_⟩
  · rw [h2]
    exact resetStatisticsFile_magic s
  · rw [h2]
    exact resetStatisticsFile_valid _ (resetStatisticsFile_magic s)
  · show resetStatisticsFile (stats_write_to_file s).2 = (stats_write_to_file s).2
    rw [h2]
    exact resetStatisticsFile_valid _ (resetStatisticsFile_magic s)
  · show (resetStatisticsFile s).magic = STATS_MAGIC
    exact resetStatisticsFile_magic s

/-- Character test `isdigit` for the ASCII byte model: codes 48..57. -/
def isdigitc (c : Nat) : Bool := decide (48 ≤ c ∧ c ≤ 57)

/-- Wrapping of a mathematical integer into the 32-bit two's-complement C
`int`, applied where the C code can overflow. -/
def wrap32 (n : Int) : Int := (n + 2 ^ 31) % 2 ^ 32 - 2 ^ 31

/-- The first loop of `parse_number` (utils.c): skip bytes until a digit or
a minus sign, counting the skipped bytes.  The C loop has no bound; when
the buffer is exhausted it reads past the datagram, which the model makes
explicit as `none` (undefined behaviour). -/
def pn_skip : List Nat → Option (List Nat × Int)
  | [] => none
  | c :: rest =>
    if isdigitc c || decide (c = 45) then some (c :: rest, 0)
    else (pn_skip rest).map (fun p => (p.1, p.2 + 1))

/-- The digit loop of `parse_number` (utils.c): `sum = 10*sum + (*ptr-'0')`
in C `int` arithmetic (hence `wrap32`), bounded by `isdigit` and the
`i < length` counter check. -/
def pn_digits (length : Int) (sum i : Int) : List Nat → Int
  | [] => sum
  | c :: rest =>
    if isdigitc c && decide (i < length) then
      pn_digits length (wrap32 (10 * sum + ((c : Int) - 48))) (i + 1) rest
    else sum

/-- Mirror of `parse_number` (utils.c): skip non-digits, note an optional
minus sign, then accumulate digits; a minus sign negates the result.
The byte list models the received bytes before the terminating NUL that
`main` writes at `data[length]`; the digit loops stop at that NUL, which
the model renders as the end of the list, while the unbounded skip loop
running past the NUL into stale buffer bytes is undefined behaviour,
rendered as `none`. -/
def parse_number (data : List Nat) (length : Int) : Option Int :=
  match pn_skip data with
  | none => none
  | some (rest, i) =>
    match rest with
    | [] => none
    | c :: rest' =>
      if c = 45 then some (wrap32 (0 - pn_digits length 0 (i + 1) rest'))
      else some (pn_digits length 0 i (c :: rest'))

/-- Command tags of `net_command_type_t` (src/src/cmd.h). -/
inductive NetCmdType where
  | heartbeat
  | startApp
  | stopApp
  | restartApp
  | unknown
  deriving Repr, DecidableEq

/-- Mirror of `net_command_t` (src/src/cmd.h); `app_name` is the byte list
`strncpy` copies for the (disabled) name-addressed commands. -/
structure NetCommand where
  type : NetCmdType
  pid : Int
  app_name : List Nat
  deriving Repr, DecidableEq

/-- Mirror of `cmd_parse_network` (cmd.c): a datagram starting with `'p'`
(112) is a heartbeat iff `parse_number` yields `n` with
`0 < n < INT32_MAX`; datagrams starting with `'a'`/`'o'`/`'r'` decode into
the reserved start/stop/restart commands; anything else is unknown.
`none` propagates the undefined `parse_number` case. -/
def cmd_parse_network (data : List Nat) (length : Int) : Option NetCommand :=
  match data with
  | [] => some ⟨NetCmdType.unknown, 0, []⟩
  | c :: rest =>
    if length ≤ 0 then some ⟨NetCmdType.unknown, 0, []⟩
    else if c = 112 then
      match parse_number (c :: rest) length with
      | none => none
      | some n =>
        if 0 < n ∧ n < INT32_MAX then some ⟨NetCmdType.heartbeat, n, []⟩
        else some ⟨NetCmdType.unknown, 0, []⟩
    else if c = 97 then some ⟨NetCmdType.startApp, 0, rest.take 31⟩
    else if c = 111 then some ⟨NetCmdType.stopApp, 0, rest.take 31⟩
    else if c = 114 then some ⟨NetCmdType.restartApp, 0, rest.take 31⟩
    else some ⟨NetCmdType.unknown, 0, []⟩

/-- Mirror of `find_pid` (src/src/apps.c): index of the first child with a
positive pid equal to the given one. -/
def find_pid (pid : Int) : List Application → Option Nat
  | [] => none
  | a :: rest =>
    if 0 < a.pid ∧ pid = a.pid then some 0
    else (find_pid pid rest).map (· + 1)

/-- Mirror of the heartbeat effect of `parse_commands` (main.c): a decoded
heartbeat whose pid matches a child updates that child's statistics
(inter-heartbeat sample when the first heartbeat was already received and
the elapsed time is non-negative, first-heartbeat sample otherwise), sets
the first-heartbeat flag and stamps `last_heartbeat`; every other decoded
command leaves the state unchanged (the start/stop/restart cases are
compiled out). -/
def parse_commands (now : Int) (data : List Nat) (length : Int)
    (apps : List Application) (stats : List Statistic) :
    Option (List Application × List Statistic) :=
  match cmd_parse_network data length with
  | none => none
  | some cmd =>
    match cmd.type with
    | NetCmdType.heartbeat =>
      match find_pid cmd.pid apps with
      | none => some (apps, stats)
      | some i =>
        match apps.get? i, stats.get? i with
        | some app, some st =>
          let t := heartbeat_get_elapsed_time now app
          if app.first_heartbeat then
            let st' := if 0 ≤ t then stats_update_heartbeat_time t st else st
            some (apps.set i (heartbeat_update_time now app), stats.set i st')
          else
            some (apps.set i (heartbeat_update_time now (heartbeat_set_first_received app)),
                  stats.set i (stats_update_first_heartbeat_time t st))
        | _, _ => some (apps, stats)
    | _ => some (apps, stats)

/-- A datagram is treated as a valid heartbeat when it decodes to the
heartbeat command and its pid is currently held by some child. -/
def heartbeat_accepted (data : List Nat) (length : Int)
    (apps : List Application) : Bool :=
  match cmd_parse_network data length with
  | none => false
  | some cmd => decide (cmd.type = NetCmdType.heartbeat) && (find_pid cmd.pid apps).isSome

/-- The decimal value of a digit string, as the spec reads it. -/
def decimal_value (ds : List Nat) : Int :=
  ds.foldl (fun acc c => 10 * acc + ((c : Int) - 48)) 0

lemma find_pid_isSome_iff (pid : Int) (apps : List Application) :
    (find_pid pid apps).isSome = true ↔ ∃ a ∈ apps, 0 < a.pid ∧ pid = a.pid := by
  induction apps with
  | nil => simp [find_pid]
  | cons a rest ih =>
    by_cases h : 0 < a.pid ∧ pid = a.pid
    · simp [find_pid, h]
    · have h1 : find_pid pid (a :: rest) = (find_pid pid rest).map (· + 1) := by
        simp [find_pid, h]
      have h2 : ((find_pid pid rest).map (· + 1)).isSome = (find_pid pid rest).isSome := by
        cases find_pid pid rest <;> rfl
      rw [h1, h2, ih]
      constructor
      · rintro ⟨b, hb, hb2⟩
        exact ⟨b, List.mem_cons_of_mem a hb, hb2⟩
      · rintro ⟨b, hb, hb2⟩
        rcases List.mem_cons.mp hb with rfl | hb
        · exact absurd hb2 h
        · exact ⟨b, hb, hb2⟩

lemma foldl_digits_lower (ds : List Nat) : ∀ sum : Int, 0 ≤ sum →
    (∀ c ∈ ds, isdigitc c = true) →
    sum ≤ ds.foldl (fun acc c => 10 * acc + ((c : Int) - 48)) sum := by
  induction ds with
  | nil =>
    intro sum _ _
    simp
  | cons c rest ih =>
    intro sum hsum hds
    have hc : isdigitc c = true := hds c (List.mem_cons_self c rest)
    have hc48 : (48 : Int) ≤ (c : Int) := by
      have := (of_decide_eq_true hc).1
      exact_mod_cast this
    have hstep : sum ≤ 10 * sum + ((c : Int) - 48) := by omega
    have hpos : (0 : Int) ≤ 10 * sum + ((c : Int) - 48) := by omega
    calc sum ≤ 10 * sum + ((c : Int) - 48) := hstep
      _ ≤ _ := by
          simpa using ih _ hpos (fun b hb => hds b (List.mem_cons_of_mem c hb))

lemma pn_digits_eq_foldl (ds : List Nat) : ∀ (sum i length : Int), 0 ≤ sum →
    (∀ c ∈ ds, isdigitc c = true) →
    i + ds.length ≤ length →
    ds.foldl (fun acc c => 10 * acc + ((c : Int) - 48)) sum < 2 ^ 31 →
    pn_digits length sum i ds =
      ds.foldl (fun acc c => 10 * acc + ((c : Int) - 48)) sum := by
  induction ds with
  | nil =>
    intro sum i length _ _ _ _
    simp [pn_digits]
  | cons c rest ih =>
    intro sum i length hsum hds hlen hbound
    have hc : isdigitc c = true := hds c (List.mem_cons_self c rest)
    have hc48 : (48 : Int) ≤ (c : Int) := by
      have := (of_decide_eq_true hc).1
      exact_mod_cast this
    have hi : i < length := by
      simp only [List.length_cons] at hlen
      omega
    have hds' : ∀ b ∈ rest, isdigitc b = true :=
      fun b hb => hds b (List.mem_cons_of_mem c hb)
    have hpos : (0 : Int) ≤ 10 * sum + ((c : Int) - 48) := by omega
    have hfold : (c :: rest).foldl (fun acc b => 10 * acc + ((b : Int) - 48)) sum =
        rest.foldl (fun acc b => 10 * acc + ((b : Int) - 48))
          (10 * sum + ((c : Int) - 48)) := rfl
    have hle : 10 * sum + ((c : Int) - 48) ≤
        rest.foldl (fun acc b => 10 * acc + ((b : Int) - 48))
          (10 * sum + ((c : Int) - 48)) :=
      foldl_digits_lower rest _ hpos hds'
    have hlt : 10 * sum + ((c : Int) - 48) < 2 ^ 31 := by
      rw [hfold] at hbound
      omega
    have hwrap : wrap32 (10 * sum + ((c : Int) - 48)) = 10 * sum + ((c : Int) - 48) := by
      unfold wrap32
      omega
    have hcond : (isdigitc c && decide (i < length)) = true := by
      simp [hc, hi]
    rw [hfold]
    unfold pn_digits
    rw [if_pos hcond, hwrap]
    refine ih _ (i + 1) length hpos hds' ?_ ?_
    · simp only [List.length_cons] at hlen
      omega
    · rw [hfold] at hbound
      exact hbound

lemma parse_number_p_digits (ds : List Nat)
    (hds : ∀ c ∈ ds, isdigitc c = true) (hne : ds ≠ [])
    (hbound : decimal_value ds < 2 ^ 31) :
    parse_number (112 :: ds) (1 + ds.length) = some (decimal_value ds) := by
  obtain ⟨c, rest, rfl⟩ := List.exists_cons_of_ne_nil hne
  have hc : isdigitc c = true := hds c (List.mem_cons_self c rest)
  have h2 : (isdigitc c || decide (c = 45)) = true := by rw [hc]; rfl
  have hskip1 : pn_skip (c :: rest) = some (c :: rest, 0) := by
    show (if isdigitc c || decide (c = 45) then some (c :: rest, (0 : Int))
          else (pn_skip rest).map fun p => (p.1, p.2 + 1)) = some (c :: rest, 0)
    rw [h2]
    rfl
  have hskip : pn_skip (112 :: c :: rest) = some (c :: rest, 1) := by
    show (if isdigitc 112 || decide ((112 : Nat) = 45) then some (112 :: c :: rest, (0 : Int))
          else (pn_skip (c :: rest)).map fun p => (p.1, p.2 + 1)) = some (c :: rest, 1)
    rw [hskip1]
    rfl
  have hc45 : ¬ (c = 45) := by
    intro h
    subst h
    exact absurd hc (by decide)
  unfold parse_number
  rw [hskip]
  dsimp only
  rw [if_neg hc45]
  congr 1
  have := pn_digits_eq_foldl (c :: rest) 0 1 (1 + ((c :: rest).length : Int))
    (le_refl 0) hds (by omega) (by simpa [decimal_value] using hbound)
  simpa [decimal_value] using this

/-- Claim C2: validity of heartbeat datagrams.

A received datagram is treated as a valid heartbeat iff it starts with
`'p'` (byte 112), its decimal part parses (`parse_number`) to an integer
strictly between 0 and INT32_MAX, and some child currently has that value
as its pid; a datagram `'p'` followed by digits whose decimal value is in
`int` range parses exactly to that decimal value; for every child table
the datagrams "p0" and "p-1" are rejected; and a datagram that is not a
valid heartbeat causes no state change.  The hypothesis `0 < length`
reflects the call site (`if(length > 0)` before `parse_commands` in
`main`). -/
theorem heartbeat_datagram_validity (data : List Nat) (length : Int)
    (apps : List Application) (stats : List Statistic) (now : Int)
    (hlen : 0 < length) :
    (heartbeat_accepted data length apps = true ↔
      (data.head? = some 112 ∧
        ∃ n, parse_number data length = some n ∧ 0 < n ∧ n < INT32_MAX ∧
          ∃ a ∈ apps, a.pid = n)) ∧
    (∀ ds : List Nat, (∀ c ∈ ds, isdigitc c = true) → ds ≠ [] →
        decimal_value ds < 2 ^ 31 →
        parse_number (112 :: ds) (1 + ds.length) = some (decimal_value ds)) ∧
    heartbeat_accepted [112, 48] 2 apps = false ∧
    heartbeat_accepted [112, 45, 49] 3 apps = false ∧
    (∀ r, parse_commands now data length apps stats = some r →
        heartbeat_accepted data length apps = false → r = (apps, stats)) := by
  refine ⟨?_, fun ds h1 h2 h3 => parse_number_p_digits ds h1 h2 h3, rfl, rfl, ?_⟩
  · cases data with
    | nil => simp [heartbeat_accepted, cmd_parse_network]
    | cons c rest =>
      have hnot : ¬ length ≤ 0 := not_le.mpr hlen
      by_cases hc : c = 112
      · subst hc
        unfold heartbeat_accepted cmd_parse_network
        dsimp only
        rw [if_neg hnot, if_pos rfl]
        cases hpn : parse_number (112 :: rest) length with
        | none => simp
        | some n =>
          by_cases hn : 0 < n ∧ n < INT32_MAX
          · dsimp only
            rw [if_pos hn]
            dsimp only
            constructor
            · intro hacc
              have hsome : (find_pid n apps).isSome = true := by simpa using hacc
              obtain ⟨a, ha, hpos, heq⟩ := (find_pid_isSome_iff n apps).mp hsome
              exact ⟨rfl, n, rfl, hn.1, hn.2, a, ha, heq.symm⟩
            · rintro ⟨-, n', hn', h1, h2, a, ha, hpid⟩
              obtain rfl : n = n' := Option.some.inj hn'
              have hsome : (find_pid n apps).isSome = true :=
                (find_pid_isSome_iff n apps).mpr ⟨a, ha, by omega, hpid.symm⟩
              simpa using hsome
          · dsimp only
            rw [if_neg hn]
            dsimp only
            constructor
            · intro h
              simp at h
            · rintro ⟨-, n', hn', h1, h2, -⟩
              obtain rfl : n = n' := Option.some.inj hn'
              exact absurd ⟨h1, h2⟩ hn
      · have haccf : heartbeat_accepted (c :: rest) length apps = false := by
          unfold heartbeat_accepted cmd_parse_network
          dsimp only
          rw [if_neg hnot, if_neg hc]
          split_ifs <;> rfl
        rw [haccf]
        simp only [List.head?_cons]
        constructor
        · intro h
          simp at h
        · rintro ⟨hhead, -⟩
          exact absurd (Option.some.inj hhead) hc
  · intro r hr hacc
    unfold parse_commands at hr
    unfold heartbeat_accepted at hacc
    cases hcmd : cmd_parse_network data length with
    | none =>
      rw [hcmd] at hr
      exact absurd hr (by simp)
    | some cmd =>
      obtain ⟨ty, pid, nm⟩ := cmd
      rw [hcmd] at hr hacc
      cases ty with
      | heartbeat =>
        dsimp only at hr hacc
        have hfind : (find_pid pid apps).isSome = false := by simpa using hacc
        cases hfp : find_pid pid apps with
        | none =>
          rw [hfp] at hr
          injection hr with h
          exact h.symm
        | some i =>
          rw [hfp] at hfind
          simp at hfind
      | startApp =>
        dsimp only at hr
        injection hr with h
        exact h.symm
      | stopApp =>
        dsimp only at hr
        injection hr with h
        exact h.symm
      | restartApp =>
        dsimp only at hr
        injection hr with h
        exact h.symm
      | unknown =>
        dsimp only at hr
        injection hr with h
        exact h.symm

/-- Witness for `heartbeat_datagram_validity`: the single-child table with
pid 7 accepts the datagram "p7" (bytes 112, 55), and the digit payload "7"
parses to 7. -/
theorem heartbeat_datagram_validity_witness :
    (0 : Int) < 2 ∧
    heartbeat_accepted [112, 55] 2 [sampleApp] = true ∧
    parse_number [112, 55] 2 = some 7 := by
  have h := heartbeat_datagram_validity [112, 55] 2 [sampleApp] [] 0 (by decide)
  refine ⟨by decide, ?_, ?_⟩
  · refine h.1.mpr ⟨rfl, 7, ?_, by decide, by decide, sampleApp, ?_, rfl⟩
    · have := h.2.1 [55] (by decide) (by decide) (by decide)
      simpa [decimal_value] using this
    · exact List.mem_singleton.mpr rfl
  · have := h.2.1 [55] (by decide) (by decide) (by decide)
    simpa [decimal_value] using this

/-- Presence of the per-app rendezvous files `start<app>`, `stop<app>`,
`restart<app>` (src/src/filecmd.c) in the working directory. -/
structure FileCmds where
  startF : Bool
  stopF : Bool
  restartF : Bool
  deriving Repr, DecidableEq

/-- Result of one per-child step of the supervisor loop: the new child
record, its statistics record, the rendezvous files after the step, and
instrumentation flags marking whether `process_start` was invoked
(directly or inside `process_restart`) and whether the stop-file branch
invoked `process_kill`. -/
structure ScanOut where
  app : Application
  st : Statistic
  files : FileCmds
  spawned : Bool
  killedByStop : Bool
  deriving Repr, DecidableEq

/-- Mirror of the per-child body of the supervisor loop (main.c).  For a
started child: crashed (liveness probe false) → stats-crash then restart;
else heartbeat timeout → stats-reset then restart; else `stop<app>`
present → kill (the file is not touched); else `restart<app>` present →
restart and remove that file.  For a not-started child: spawn when the
stop latch is absent and (`start<app>` present or the start delay has
elapsed); on a successful spawn record stats-started and remove the
`start<app>` and `restart<app>` files.  The side effect of the
`heartbeat_is_timeout` call (clock-anomaly reset) is threaded through.
The 60-second resource-sampling and 15-minute persistence blocks touch
only statistics and the stats files, not the child record or the
rendezvous files, and are omitted here. -/
def scan_app (o : ProcOracle) (now wallNow : Int) (running startTime : Bool)
    (files : FileCmds) (app : Application) (st : Statistic) : ScanOut :=
  if app.started then
    if !running then
      { app := process_restart o now app, st := stats_crashed_at wallNow st,
        files := files, spawned := true, killedByStop := false }
    else
      let tmo := heartbeat_is_timeout now app
      if tmo.1 then
        { app := process_restart o now tmo.2, st := stats_heartbeat_reset_at wallNow st,
          files := files, spawned := true, killedByStop := false }
      else if files.stopF then
        { app := process_kill o tmo.2, st := st, files := files,
          spawned := false, killedByStop := true }
      else if files.restartF then
        { app := process_restart o now tmo.2, st := st,
          files := { files with restartF := false },
          spawned := true, killedByStop := false }
      else
        { app := tmo.2, st := st, files := files,
          spawned := false, killedByStop := false }
  else
    if !files.stopF && (files.startF || startTime) then
      let app' := process_start o now app
      if app'.started then
        { app := app', st := stats_started_at wallNow st,
          files := { files with startF := false, restartF := false },
          spawned := true, killedByStop := false }
      else
        { app := app', st := st, files := files,
          spawned := true, killedByStop := false }
    else
      { app := app, st := st, files := files,
        spawned := false, killedByStop := false }

/-- Claim C6 as stated is false: a started child that has crashed is
restarted — hence spawned — on a tick where its `stop<app>` file is
present, because the crash branch precedes the stop-file check.  Concrete
input: `sampleApp` (started, pid 7), liveness probe false, stop file
present; the tick spawns while the stop file is present (and remains). -/
theorem stop_latch_counterexample :
    sampleApp.started = true ∧
    (scan_app ⟨9, true, true, true⟩ 12 100 false false
        ⟨false, true, false⟩ sampleApp Statistic.zero).spawned = true ∧
    (scan_app ⟨9, true, true, true⟩ 12 100 false false
        ⟨false, true, false⟩ sampleApp Statistic.zero).files.stopF = true := by
  refine ⟨rfl, ?_, ?_⟩ <;> rfl

/-- Claim C6 amended: the supervisor never removes the `stop<app>` file;
a started, running, non-timed-out child with the stop file present is
killed and the file is left in place; and the not-started branch spawns
only when the stop file is absent.  (The crash, heartbeat-timeout and
`restart<app>` branches of a started child do restart — and hence spawn —
regardless of the stop file; the latch only prevents spawning from the
not-started state.) -/
theorem stop_latch_amended (o : ProcOracle) (now wallNow : Int)
    (running startTime : Bool) (files : FileCmds)
    (app : Application) (st : Statistic) :
    (scan_app o now wallNow running startTime files app st).files.stopF = files.stopF ∧
    (app.started = false →
      (scan_app o now wallNow running startTime files app st).spawned = true →
      files.stopF = false) ∧
    (app.started = true → running = true → (heartbeat_is_timeout now app).1 = false →
      files.stopF = true →
      (scan_app o now wallNow running startTime files app st).killedByStop = true ∧
      (scan_app o now wallNow running startTime files app st).app =
        process_kill o (heartbeat_is_timeout now app).2) := by
  refine ⟨?_, ?_, ?_⟩
  · simp only [scan_app]
    split_ifs <;> rfl
  · intro hs hsp
    by_cases hentry : (!files.stopF && (files.startF || startTime)) = true
    · have h1 := ((Bool.and_eq_true _ _).mp hentry).1
      simpa using h1
    · exfalso
      unfold scan_app at hsp
      rw [hs] at hsp
      simp [hentry] at hsp
  · intro hs hr ht hstop
    simp [scan_app, hs, hr, ht, hstop]

/-- Witness for `stop_latch_amended`: the started, running, non-timed-out
child `sampleApp` with the stop file present is killed by the stop
branch. -/
theorem stop_latch_amended_witness :
    sampleApp.started = true ∧
    (scan_app ⟨9, true, true, true⟩ 4 100 true false
        ⟨false, true, false⟩ sampleApp Statistic.zero).killedByStop = true := by
  refine ⟨rfl, ?_⟩
  exact ((stop_latch_amended ⟨9, true, true, true⟩ 4 100 true false
      ⟨false, true, false⟩ sampleApp Statistic.zero).2.2 rfl rfl (by decide) rfl).1

/-- The volatile flags of main.c together with whether `exit()` was called
from the SIGUSR1 handler (and with which code). -/
structure SigState where
  kill_error : Int
  main_alive : Bool
  return_code : Int
  exited : Option Int
  deriving Repr, DecidableEq

/-- The state at program start: `kill_error = 10`, `main_alive = true`,
`return_code = EXIT_NORMALLY`, no exit performed. -/
def initSigState : SigState :=
  { kill_error := 10, main_alive := true, return_code := EXIT_NORMALLY, exited := none }

/-- Mirror of `SIGUSR1_handler` (main.c): clears `main_alive`, sets
`return_code = EXIT_NORMALLY`, then decrements `kill_error` while it is
positive; once it reaches zero the handler calls `exit(EXIT_NORMALLY)`. -/
def SIGUSR1_handler (s : SigState) : SigState :=
  let s1 := { s with main_alive := false, return_code := EXIT_NORMALLY }
  if 0 < s1.kill_error then { s1 with kill_error := s1.kill_error - 1 }
  else { s1 with exited := some EXIT_NORMALLY }

/-- Claim C7 as stated is false at the concrete initial state: after
exactly 10 SIGUSR1 deliveries the handler has not called `exit` — the
tenth occurrence only decrements `kill_error` from 1 to 0 and sets the
flags; the forced exit happens on the eleventh occurrence. -/
theorem sigusr1_tenth_counterexample :
    (SIGUSR1_handler^[10] initSigState).exited = none ∧
    (SIGUSR1_handler^[10] initSigState).kill_error = 0 ∧
    (SIGUSR1_handler^[10] initSigState).main_alive = false ∧
    (SIGUSR1_handler^[10] initSigState).return_code = EXIT_NORMALLY := by
  refine ⟨?_, ?_, ?_, ?_⟩ <;> decide

/-- Claim C7 amended: each of the first ten SIGUSR1 occurrences only
clears the exit flag and sets exit code 0 without exiting; the eleventh
occurrence causes the immediate forced exit with code 0. -/
theorem sigusr1_eleventh_exits (k : Nat) (hk1 : 1 ≤ k) (hk10 : k ≤ 10) :
    (SIGUSR1_handler^[k] initSigState).exited = none ∧
    (SIGUSR1_handler^[k] initSigState).main_alive = false ∧
    (SIGUSR1_handler^[k] initSigState).return_code = EXIT_NORMALLY ∧
    (SIGUSR1_handler^[11] initSigState).exited = some EXIT_NORMALLY := by
  interval_cases k <;> exact ⟨by decide, by decide, by decide, by decide⟩

/-- Witness for `sigusr1_eleventh_exits` at the third occurrence. -/
theorem sigusr1_eleventh_exits_witness :
    (1 ≤ 3 ∧ 3 ≤ 10) ∧ (SIGUSR1_handler^[3] initSigState).exited = none := by
  exact ⟨⟨by decide, by decide⟩,
    (sigusr1_eleventh_exits 3 (by decide) (by decide)).1⟩

/-- Reboot policy tags of `reboot_mode_t` (config parsing, config.c). -/
inductive RebootMode where
  | disabled
  | dailyTime
  | interval
  deriving Repr, DecidableEq

/-- The `reboot_params` union: daily hour/minute or interval minutes. -/
structure RebootParams where
  hour : Int
  minute : Int
  interval_minutes : Int
  deriving Repr, DecidableEq

/-- The loop-control flags of main.c: `main_alive` and `return_code`. -/
structure LoopCtl where
  main_alive : Bool
  return_code : Int
  deriving Repr, DecidableEq

/-- Mirror of the periodic-reboot check at the bottom of the supervisor
loop (main.c).  Guard: mode configured and `uptime % 60 == 0` (C `%` on
`long` is truncated division, `Int.tmod`).  Daily mode fires when the
local time matches; interval mode fires when
`uptime_minutes > 0 && uptime_minutes % interval_minutes == 0` with
`uptime_minutes = uptime / 60` (C truncated division, `Int.tdiv`).
Firing clears `main_alive` and sets `return_code = EXIT_REBOOT`. -/
def check_periodic_reboot (mode : RebootMode) (params : RebootParams)
    (uptime localHour localMin : Int) (s : LoopCtl) : LoopCtl :=
  if mode ≠ RebootMode.disabled ∧ Int.tmod uptime 60 = 0 then
    match mode with
    | RebootMode.dailyTime =>
      if localHour = params.hour ∧ localMin = params.minute then
        { main_alive := false, return_code := EXIT_REBOOT }
      else s
    | RebootMode.interval =>
      let uptime_minutes := Int.tdiv uptime 60
      if 0 < uptime_minutes ∧ Int.tmod uptime_minutes params.interval_minutes = 0 then
        { main_alive := false, return_code := EXIT_REBOOT }
      else s
    | RebootMode.disabled => s
  else s

/-- Mirror of the `while(main_alive)` supervisor loop shape (main.c),
parametrised by the tick body and bounded by fuel: the loop body is
entered only while `main_alive` holds. -/
def loop_run (tick : LoopCtl → LoopCtl) : Nat → LoopCtl → LoopCtl
  | 0, s => s
  | n + 1, s => if s.main_alive then loop_run tick n (tick s) else s

/-- Claim C8: with an interval reboot policy, the reboot check changes
nothing unless the uptime is a multiple of 60 seconds, and on such ticks
it fires exactly when `uptime_minutes > 0` and
`uptime_minutes % interval_minutes = 0`; firing clears `main_alive` and
sets the exit code to `EXIT_REBOOT = 3`, and a cleared `main_alive` stops
the loop (the body is never entered again). -/
theorem periodic_reboot_interval_fires (params : RebootParams)
    (uptime localHour localMin : Int) (s : LoopCtl) :
    (check_periodic_reboot RebootMode.interval params uptime localHour localMin s =
      if Int.tmod uptime 60 = 0 ∧ 0 < Int.tdiv uptime 60 ∧
          Int.tmod (Int.tdiv uptime 60) params.interval_minutes = 0 then
        { main_alive := false, return_code := EXIT_REBOOT }
      else s) ∧
    (Int.tmod uptime 60 ≠ 0 →
      check_periodic_reboot RebootMode.interval params uptime localHour localMin s = s) ∧
    EXIT_REBOOT = 3 ∧
    (∀ (tick : LoopCtl → LoopCtl) (n : Nat),
      loop_run tick n { main_alive := false, return_code := EXIT_REBOOT } =
        { main_alive := false, return_code := EXIT_REBOOT }) := by
  refine ⟨?_, ?_, rfl, ?_⟩
  · unfold check_periodic_reboot
    by_cases hm : Int.tmod uptime 60 = 0
    · simp only [hm]
      by_cases hf : 0 < Int.tdiv uptime 60 ∧
          Int.tmod (Int.tdiv uptime 60) params.interval_minutes = 0 <;>
        simp [hf]
    · simp [hm]
  · intro hm
    unfold check_periodic_reboot
    simp [hm]
  · intro tick n
    cases n with
    | zero => rfl
    | succ m => simp [loop_run]

/-- Witness for `periodic_reboot_interval_fires`: at uptime 61 (not a
multiple of 60) the check leaves the loop state unchanged. -/
theorem periodic_reboot_interval_fires_witness :
    Int.tmod 61 60 ≠ 0 ∧
    check_periodic_reboot RebootMode.interval ⟨0, 0, 2⟩ 61 0 0
      { main_alive := true, return_code := EXIT_NORMALLY } =
      { main_alive := true, return_code := EXIT_NORMALLY } := by
  refine ⟨by decide, ?_⟩
  exact (periodic_reboot_interval_fires ⟨0, 0, 2⟩ 61 0 0
    { main_alive := true, return_code := EXIT_NORMALLY }).2.1 (by decide)

end ProcessWatchdog
